import Mathlib

/-!
Verification development for the excel-generation-api service.

The definitions below are a shallow embedding of the TypeScript sources
`src/api/utils/excelUtils.ts` (mapping engine, table builder, workbook
assembler, template inspector) and `src/api/controllers/excelController.ts`
(bulk generation).  Conventions of the embedding:

* JavaScript values are modelled by the inductive type `JsValue`.  Numbers are
  modelled as `Int` (the code performs no arithmetic on field values, so
  floating point behaviour is irrelevant; `NaN` is not representable).
  `undefined` and `null` are distinct constructors, matching JS.
* JS exceptions are modelled by `Thrown` (an `Error` carrying a message, or a
  non-`Error` value); fallible code runs in `Except Thrown`.
* External ExcelJS operations (loading a template buffer, serializing a
  workbook to a binary buffer) are modelled as parameters: a template load is
  an `Except Thrown Workbook` (the outcome of `workbook.xlsx.load`), and the
  serializer is a function argument, so theorems quantify over every possible
  behaviour of the external library.
* Property access `o[k]` that cannot throw (guarded by `&&` short-circuit in
  the source) is the total function `JsValue.getProp`; unguarded access is
  `JsValue.getMember`, which throws a `TypeError` on `null`/`undefined`
  receivers exactly as JS does (message text modelled without quote marks).
-/

inductive JsValue where
  | undefined : JsValue
  | null : JsValue
  | bool : Bool → JsValue
  | num : Int → JsValue
  | str : String → JsValue
  | arr : List JsValue → JsValue
  | obj : List (String × JsValue) → JsValue

/-- JS truthiness: `undefined`, `null`, `false`, `0`, and the empty string are
falsy; every other value (including empty arrays and objects) is truthy. -/
def JsValue.truthy : JsValue → Bool
  | .undefined => false
  | .null => false
  | .bool b => b
  | .num n => n != 0
  | .str s => s != ""
  | .arr _ => true
  | .obj _ => true

/-- First-match lookup of a key in an object's field list; a missing key reads
as `undefined`, as in JS. -/
def lookupField : List (String × JsValue) → String → JsValue
  | [], _ => .undefined
  | (k, v) :: rest, key => if k = key then v else lookupField rest key

/-- Total JS property read `o[key]` for receivers on which it cannot throw.
Array reads accept canonical numeric keys; other string keys on arrays and any
key on primitives read as `undefined` (the source never reads `length` or
other built-in properties through this path). -/
def JsValue.getProp : JsValue → String → JsValue
  | .obj fields, key => lookupField fields key
  | .arr elems, key =>
      if !key.data.isEmpty && key.data.all (fun c => '0'.toNat ≤ c.toNat && c.toNat ≤ '9'.toNat) then
        (elems.get? (key.data.foldl (fun acc c => acc * 10 + (c.toNat - '0'.toNat)) 0)).getD .undefined
      else .undefined
  | _, _ => .undefined

/-- A thrown JS value: an `Error` with its message, or any non-`Error` value. -/
inductive Thrown where
  | error : String → Thrown
  | nonError : Thrown
deriving DecidableEq

/-- The idiom `e instanceof Error ? e.message : fallback` used by every catch
block in the source. -/
def Thrown.messageOr : Thrown → String → String
  | .error msg, _ => msg
  | .nonError, fallback => fallback

/-- Unguarded JS property read `o[key]`: throws a `TypeError` when the receiver
is `null` or `undefined`, otherwise reads like `JsValue.getProp`. -/
def JsValue.getMember : JsValue → String → Except Thrown JsValue
  | .null, key => .error (.error ("Cannot read properties of null (reading " ++ key ++ ")"))
  | .undefined, key => .error (.error ("Cannot read properties of undefined (reading " ++ key ++ ")"))
  | v, key => .ok (v.getProp key)

/-- JS logical or `a || b`. -/
def jsOr (a b : JsValue) : JsValue := if a.truthy then a else b

/-- One step of the reducer inside `getNestedValue`:
`current && current[key] !== undefined ? current[key] : null`. -/
def jsStep (current : JsValue) (key : String) : JsValue :=
  if current.truthy then
    match current.getProp key with
    | .undefined => .null
    | v => v
  else .null

/-- Structural implementation of the JS `path.split('.')`: splits a character
list at every `'.'`, keeping empty groups, so `"a.b"` gives `["a","b"]`, `""`
gives `[""]` and `"a."` gives `["a",""]`, exactly as in JS. -/
def splitOnDot : List Char → List (List Char)
  | [] => [[]]
  | c :: rest =>
      if c = '.' then [] :: splitOnDot rest
      else match splitOnDot rest with
        | [] => [[c]]
        | group :: groups => (c :: group) :: groups

/-- `getNestedValue` from excelUtils.ts: split the dotted path on `.` and fold
the guarded property read over the segments. -/
def getNestedValue (obj : JsValue) (path : String) : JsValue :=
  ((splitOnDot path.data).map String.mk).foldl jsStep obj

/-- Recursive restatement of the segment walk of `getNestedValue`, used to
state and prove properties of intermediate steps. -/
def resolveSegs : JsValue → List String → JsValue
  | current, [] => current
  | current, key :: rest => resolveSegs (jsStep current key) rest

/-- `columnLetterToNumber` from excelUtils.ts: base-26 fold with 1-origin
digits, `'A'.charCodeAt(0) = 65`. -/
def columnLetterToNumber (letter : String) : Nat :=
  letter.data.foldl (fun result c => result * 26 + (c.toNat - 'A'.toNat + 1)) 0

/-- Loop body of `numberToColumnLetter`.  The JS `while (num > 0)` loop
strictly decreases `num` on every iteration (`num` becomes `(num-1)/26`), so
the initial `num` bounds the iteration count; the first argument is that
structural bound. -/
def numberToColumnLetterGo : Nat → Nat → List Char
  | _, 0 => []
  | 0, _ + 1 => []
  | fuel + 1, num + 1 => numberToColumnLetterGo fuel (num / 26) ++ [Char.ofNat ('A'.toNat + num % 26)]

/-- `numberToColumnLetter` from excelUtils.ts. -/
def numberToColumnLetter (num : Nat) : String :=
  String.mk (numberToColumnLetterGo num num)

/-- Digits-to-number parse used for the row part of a cell reference
(`parseInt` on a string of decimal digits). -/
def digitsToNat (cs : List Char) : Nat :=
  cs.foldl (fun acc c => acc * 10 + (c.toNat - '0'.toNat)) 0

def isUpperAlpha (c : Char) : Bool := 'A'.toNat ≤ c.toNat && c.toNat ≤ 'Z'.toNat

def isDigitChar (c : Char) : Bool := '0'.toNat ≤ c.toNat && c.toNat ≤ '9'.toNat

/-- Parse of a cell reference against `^([A-Z]+)([0-9]+)$` (the regex used by
`createTable` and, equivalently, ExcelJS cell addressing used by the mapping
engine), yielding `(column number, row number)`. -/
def parseCellRef (s : String) : Option (Nat × Nat) :=
  let letters := s.data.takeWhile isUpperAlpha
  let rest := s.data.drop letters.length
  if letters.isEmpty || rest.isEmpty || !rest.all isDigitChar then none
  else some (columnLetterToNumber (String.mk letters), digitsToNat rest)

/-- A cell value: either a plain value or a formula with its cached result
(ExcelJS `{ formula, result }`). -/
inductive CellValue where
  | plain : JsValue → CellValue
  | formulaResult : String → JsValue → CellValue

/-- ExcelJS font attributes touched by the source; `none` models an absent key. -/
structure Font where
  color : Option String := none
  size : Option Nat := none
  bold : Option Bool := none
  italic : Option Bool := none
  underline : Option Bool := none

/-- A worksheet cell.  `fill` holds the ARGB foreground color of a solid
pattern fill (the only fill the source ever sets); an untouched cell reads as
value `null` with no styling, as in ExcelJS. -/
structure Cell where
  value : CellValue := .plain .null
  fill : Option String := none
  font : Font := {}
  numFmt : Option String := none

/-- The argument record of `worksheet.addTable` as the source builds it. -/
structure ExcelTable where
  name : String
  ref : String
  headerRow : Bool
  theme : String
  showRowStripes : Bool
  columns : List String
  rows : List (List JsValue)

/-- A worksheet: cells addressed by (row, column), registered tables, and the
per-sheet options state set by the workbook assembler. -/
structure Worksheet where
  cells : List ((Nat × Nat) × Cell) := []
  tables : List ExcelTable := []
  colWidths : List (Nat × Nat) := []
  frozenTopRow : Bool := false
  protection : Option String := none

/-- First-match cell lookup; `setCell` prepends, so the most recent write wins. -/
def lookupCell : List ((Nat × Nat) × Cell) → Nat × Nat → Option Cell
  | [], _ => none
  | e :: rest, k => if e.1 = k then some e.2 else lookupCell rest k

def Worksheet.getCell (ws : Worksheet) (r c : Nat) : Cell :=
  (lookupCell ws.cells (r, c)).getD {}

def Worksheet.setCell (ws : Worksheet) (r c : Nat) (cell : Cell) : Worksheet :=
  { ws with cells := ((r, c), cell) :: ws.cells }

/-- The mutation `worksheet.getCell(r, c).value = v`. -/
def Worksheet.setCellValue (ws : Worksheet) (r c : Nat) (v : CellValue) : Worksheet :=
  ws.setCell r c { ws.getCell r c with value := v }

/-- The mutation `cell.fill = { type: 'pattern', pattern: 'solid', fgColor: { argb } }`. -/
def Worksheet.setCellFill (ws : Worksheet) (r c : Nat) (argb : String) : Worksheet :=
  ws.setCell r c { ws.getCell r c with fill := some argb }

/-- The mutation `cell.font = f` (wholesale replacement). -/
def Worksheet.setCellFont (ws : Worksheet) (r c : Nat) (f : Font) : Worksheet :=
  ws.setCell r c { ws.getCell r c with font := f }

def Worksheet.addTable (ws : Worksheet) (t : ExcelTable) : Worksheet :=
  { ws with tables := ws.tables ++ [t] }

/-- Truthiness of an optional JS string: absent or empty is falsy. -/
def jsStrTruthy : Option String → Bool
  | some s => s != ""
  | none => false

/-- `TableConfig.style` from excelUtils.ts; an absent style object behaves like
one with every key absent (the source only reads it via `style?.key`). -/
structure TableStyle where
  headerBgColor : Option String := none
  headerFontColor : Option String := none
  rowBgColor : Option String := none
  alternateRowBgColor : Option String := none

/-- `TableConfig` from excelUtils.ts. -/
structure TableConfig where
  sheet : String
  tableName : String
  startCell : String
  columns : List String
  style : TableStyle := {}

/-- Alternating-row fill of `createTable`: guarded by either row color being
set (JS truthy), even data rows use `rowBgColor`, odd ones
`alternateRowBgColor || rowBgColor`, and the chosen color is applied only if
itself truthy. -/
def applyRowFill (tc : TableConfig) (rowIndex r colNum : Nat) (ws : Worksheet) : Worksheet :=
  if jsStrTruthy tc.style.rowBgColor || jsStrTruthy tc.style.alternateRowBgColor then
    let bgColor := if rowIndex % 2 = 0 then tc.style.rowBgColor
      else if jsStrTruthy tc.style.alternateRowBgColor then tc.style.alternateRowBgColor
      else tc.style.rowBgColor
    match bgColor with
    | some color => if color ≠ "" then ws.setCellFill r colNum ("FF" ++ color) else ws
    | none => ws
  else ws

/-- One data cell write of `createTable` (value assignment followed by the
alternating-row fill). -/
def writeTableCell (tc : TableConfig) (rowIndex r colNum : Nat) (v : CellValue) (ws : Worksheet) : Worksheet :=
  applyRowFill tc rowIndex r colNum (ws.setCellValue r colNum v)

/-- The header loop of `createTable`: `columns.forEach((header, index))`,
writing the header value, optional header fill, and a bold font (with the
optional header font color). -/
def writeHeaderCells (tc : TableConfig) (startRow startCol : Nat) : Nat → List String → Worksheet → Worksheet
  | _, [], ws => ws
  | index, header :: rest, ws =>
      let ws := ws.setCellValue startRow (startCol + index) (.plain (.str header))
      let ws := match tc.style.headerBgColor with
        | some color => if color ≠ "" then ws.setCellFill startRow (startCol + index) ("FF" ++ color) else ws
        | none => ws
      let ws := match tc.style.headerFontColor with
        | some color =>
            if color ≠ "" then
              ws.setCellFont startRow (startCol + index) { color := some ("FF" ++ color), bold := some true }
            else ws.setCellFont startRow (startCol + index) { bold := some true }
        | none => ws.setCellFont startRow (startCol + index) { bold := some true }
      writeHeaderCells tc startRow startCol (index + 1) rest ws

/-- The array-row branch of the data loop: `row.forEach((cellValue, colIndex))`
with the `colIndex < columns.length` guard. -/
def writeArrayCells (tc : TableConfig) (rowIndex currentRow startCol : Nat) : Nat → List JsValue → Worksheet → Worksheet
  | _, [], ws => ws
  | colIndex, cellValue :: rest, ws =>
      let ws := if colIndex < tc.columns.length then
          writeTableCell tc rowIndex currentRow (startCol + colIndex) (.plain cellValue) ws
        else ws
      writeArrayCells tc rowIndex currentRow startCol (colIndex + 1) rest ws

/-- The object-row branch of the data loop:
`columns.forEach((column, colIndex))` writing `row[column] || ''`; the member
read throws on a `null` row. -/
def writeObjectCells (tc : TableConfig) (row : JsValue) (rowIndex currentRow startCol : Nat) : Nat → List String → Worksheet → Except Thrown Worksheet
  | _, [], ws => .ok ws
  | colIndex, column :: rest, ws => do
      let v ← row.getMember column
      let ws := writeTableCell tc rowIndex currentRow (startCol + colIndex) (.plain (jsOr v (.str ""))) ws
      writeObjectCells tc row rowIndex currentRow startCol (colIndex + 1) rest ws

/-- One iteration of `tableData.forEach((row, rowIndex))`: arrays are written
positionally, objects (and `null`, since `typeof null === 'object'`) key by
column name, and every other value is silently skipped. -/
def writeDataRow (tc : TableConfig) (startCol startRow rowIndex : Nat) (row : JsValue) (ws : Worksheet) : Except Thrown Worksheet :=
  let currentRow := startRow + rowIndex + 1
  match row with
  | .arr values => .ok (writeArrayCells tc rowIndex currentRow startCol 0 values ws)
  | .obj _ => writeObjectCells tc row rowIndex currentRow startCol 0 tc.columns ws
  | .null => writeObjectCells tc row rowIndex currentRow startCol 0 tc.columns ws
  | _ => .ok ws

/-- The data loop of `createTable` over all rows. -/
def writeDataRows (tc : TableConfig) (startCol startRow : Nat) : Nat → List JsValue → Worksheet → Except Thrown Worksheet
  | _, [], ws => .ok ws
  | rowIndex, row :: rest, ws => do
      let ws ← writeDataRow tc startCol startRow rowIndex row ws
      writeDataRows tc startCol startRow (rowIndex + 1) rest ws

/-- The `rows:` argument of `worksheet.addTable`:
`Array.isArray(row) ? row : columns.map(col => row[col] || '')`. -/
def tableRowCells (tc : TableConfig) (row : JsValue) : Except Thrown (List JsValue) :=
  match row with
  | .arr values => .ok values
  | _ => tc.columns.mapM (fun col => do
      let v ← row.getMember col
      pure (jsOr v (.str "")))

/-- `createTable` from excelUtils.ts: no-op on empty data, throw on an invalid
start cell, write headers then data rows, then register the native table
spanning from the start cell to
(`startCol + columns.length - 1`, `startRow + tableData.length`). -/
def createTable (ws : Worksheet) (tc : TableConfig) (tableData : List JsValue) : Except Thrown Worksheet :=
  if tableData.length = 0 then .ok ws
  else match parseCellRef tc.startCell with
  | none => .error (.error ("Invalid start cell: " ++ tc.startCell))
  | some (startCol, startRow) => do
      let ws := writeHeaderCells tc startRow startCol 0 tc.columns ws
      let ws ← writeDataRows tc startCol startRow 0 tableData ws
      let rows ← tableData.mapM (tableRowCells tc)
      .ok (ws.addTable {
        name := tc.tableName,
        ref := tc.startCell ++ ":" ++ numberToColumnLetter (startCol + tc.columns.length - 1)
                 ++ toString (startRow + tableData.length),
        headerRow := true,
        theme := "TableStyleMedium9",
        showRowStripes := true,
        columns := tc.columns,
        rows := rows })

/-- `MappingConfig.style` from excelUtils.ts. -/
structure MappingStyle where
  bgColor : Option String := none
  fontColor : Option String := none
  fontSize : Option Nat := none
  bold : Option Bool := none
  italic : Option Bool := none
  underline : Option Bool := none

/-- `MappingConfig` from excelUtils.ts. -/
structure MappingConfig where
  sheet : String
  cell : String
  fieldName : String
  style : Option MappingStyle := none
  formula : Option String := none
  format : Option String := none

/-- The spread `{ ...cell.font, ...fontOptions }`: keys present in
`fontOptions` override, the rest keep the existing font's values. -/
def mergeFont (old new : Font) : Font :=
  { color := match new.color with | some c => some c | none => old.color,
    size := match new.size with | some s => some s | none => old.size,
    bold := match new.bold with | some b => some b | none => old.bold,
    italic := match new.italic with | some b => some b | none => old.italic,
    underline := match new.underline with | some b => some b | none => old.underline }

/-- Whether any key was put into `fontOptions`
(`Object.keys(fontOptions).length > 0`). -/
def fontHasKeys (f : Font) : Bool :=
  f.color.isSome || f.size.isSome || f.bold.isSome || f.italic.isSome || f.underline.isSome

/-- `applyCellStyle` from excelUtils.ts, as a pure cell transformer: solid
background fill when `bgColor` is truthy, then font options merged onto the
existing font when at least one is set.  Each `if (style.x)` is a JS
truthiness test, so empty strings, `fontSize: 0` and `false` flags are
skipped. -/
def applyCellStyle (cell : Cell) (style : Option MappingStyle) : Cell :=
  match style with
  | none => cell
  | some s =>
      let cell := match s.bgColor with
        | some color => if color ≠ "" then { cell with fill := some ("FF" ++ color) } else cell
        | none => cell
      let fontOptions : Font := {
        color := match s.fontColor with
          | some color => if color ≠ "" then some ("FF" ++ color) else none
          | none => none,
        size := match s.fontSize with
          | some n => if n ≠ 0 then some n else none
          | none => none,
        bold := if s.bold = some true then some true else none,
        italic := if s.italic = some true then some true else none,
        underline := if s.underline = some true then some true else none }
      if fontHasKeys fontOptions then { cell with font := mergeFont cell.font fontOptions }
      else cell

/-- `applyCellFormat` from excelUtils.ts: keyword formats (case-insensitive)
map to fixed format codes, anything else is used verbatim; a missing or empty
format string is a no-op (`if (!format) return`). -/
def applyCellFormat (cell : Cell) (format : Option String) : Cell :=
  match format with
  | none => cell
  | some f =>
      if f = "" then cell
      else
        let fmt := match f.toLower with
          | "currency" => "$#,##0.00"
          | "percentage" => "0.00%"
          | "date" => "mm/dd/yyyy"
          | "datetime" => "mm/dd/yyyy hh:mm:ss"
          | "number" => "#,##0.00"
          | "integer" => "#,##0"
          | _ => f
        { cell with numFmt := some fmt }

/-- A workbook: named sheets in creation order. -/
structure Workbook where
  sheets : List (String × Worksheet) := []

def Workbook.getWorksheet (wb : Workbook) (name : String) : Option Worksheet :=
  match wb.sheets.find? (fun e => e.1 == name) with
  | some e => some e.2
  | none => none

def Workbook.addWorksheet (wb : Workbook) (name : String) : Workbook :=
  { sheets := wb.sheets ++ [(name, {})] }

/-- Write back a mutated worksheet object under its name. -/
def Workbook.setWorksheet (wb : Workbook) (name : String) (ws : Worksheet) : Workbook :=
  { sheets := wb.sheets.map (fun e => if e.1 = name then (name, ws) else e) }

/-- The `let worksheet = getWorksheet(sheet); if (!worksheet) addWorksheet(sheet)`
idiom at the top of both processing loops. -/
def Workbook.ensureWorksheet (wb : Workbook) (name : String) : Workbook :=
  if (wb.getWorksheet name).isSome then wb else wb.addWorksheet name

/-- One iteration of the mapping loop of `generateWorkbook`: resolve/create the
sheet, address the cell (ExcelJS throws on a malformed reference), resolve the
field, set the value — `{ formula, result: value || 0 }` when `formula` is
truthy, otherwise `value !== null ? value : ''` — then apply style and
format. -/
def processMapping (jsonData : JsValue) (workbook : Workbook) (mapping : MappingConfig) : Except Thrown Workbook :=
  let workbook := workbook.ensureWorksheet mapping.sheet
  match parseCellRef mapping.cell with
  | none => .error (.error ("Invalid Address: " ++ mapping.cell))
  | some (col, row) =>
      let ws := (workbook.getWorksheet mapping.sheet).getD {}
      let value := getNestedValue jsonData mapping.fieldName
      let plainValue : CellValue := .plain (match value with | .null => .str "" | v => v)
      let cellValue : CellValue := match mapping.formula with
        | some f => if f = "" then plainValue else .formulaResult f (jsOr value (.num 0))
        | none => plainValue
      let cell := { ws.getCell row col with value := cellValue }
      let cell := applyCellStyle cell mapping.style
      let cell := applyCellFormat cell mapping.format
      .ok (workbook.setWorksheet mapping.sheet (ws.setCell row col cell))

/-- One iteration of the table loop of `generateWorkbook`: resolve/create the
sheet, compute `getNestedValue(jsonData, 'tableData') || jsonData.tableData`
(the direct read can throw on a null/undefined document), and call
`createTable` when that is truthy.  A truthy non-array slips past the length
check and makes `tableData.forEach` throw, modelled by the TypeError below. -/
def processTableConfig (jsonData : JsValue) (workbook : Workbook) (tableConfig : TableConfig) : Except Thrown Workbook := do
  let workbook := workbook.ensureWorksheet tableConfig.sheet
  let ws := (workbook.getWorksheet tableConfig.sheet).getD {}
  let nested := getNestedValue jsonData "tableData"
  let tableData ← if nested.truthy then pure nested else jsonData.getMember "tableData"
  if tableData.truthy then
    match tableData with
    | .arr rows => do
        let ws ← createTable ws tableConfig rows
        pure (workbook.setWorksheet tableConfig.sheet ws)
    | _ => .error (.error "tableData.forEach is not a function")
  else pure workbook

/-- `ExcelOptions` from excelUtils.ts. -/
structure ExcelOptions where
  includeHeaders : Option Bool := none
  autoFitColumns : Option Bool := none
  freezeFirstRow : Option Bool := none
  protectSheet : Option Bool := none
  password : Option String := none

/-- `autoFitColumns` from excelUtils.ts: width 15 for columns 1 through 10. -/
def autoFitColumns (ws : Worksheet) : Worksheet :=
  { ws with colWidths := (List.range 10).map (fun i => (i + 1, 15)) }

/-- The per-sheet options pass of `generateWorkbook`: autofit unless
`autoFitColumns === false`, frozen top row when `freezeFirstRow` is truthy,
protection with `password || ''` when `protectSheet` is truthy. -/
def applySheetOptions (options : ExcelOptions) (ws : Worksheet) : Worksheet :=
  let ws := if options.autoFitColumns ≠ some false then autoFitColumns ws else ws
  let ws := if options.freezeFirstRow = some true then { ws with frozenTopRow := true } else ws
  if options.protectSheet = some true then { ws with protection := some (options.password.getD "") }
  else ws

/-- The body of the `try` block of `generateWorkbook`.  `template` is the
outcome of `workbook.xlsx.load` on the supplied buffer (`none` when no
template was uploaded, in which case a fresh workbook with `Sheet1` is used);
`serialize` is the external `workbook.xlsx.writeBuffer`. -/
def generateWorkbookCore {β : Type} (jsonData : JsValue) (mappingConfig : List MappingConfig)
    (tableConfigs : List TableConfig) (template : Option (Except Thrown Workbook))
    (options : ExcelOptions) (serialize : Workbook → Except Thrown β) : Except Thrown β := do
  let workbook ← match template with
    | some loadResult => loadResult
    | none => pure (Workbook.addWorksheet {} "Sheet1")
  let workbook ← mappingConfig.foldlM (processMapping jsonData) workbook
  let workbook ← tableConfigs.foldlM (processTableConfig jsonData) workbook
  let workbook := { sheets := workbook.sheets.map (fun e => (e.1, applySheetOptions options e.2)) }
  serialize workbook

/-- `generateWorkbook` from excelUtils.ts: the whole pipeline wrapped in
`try/catch`, re-throwing every failure as a single
`Failed to generate Excel workbook: <original message>` error. -/
def generateWorkbook {β : Type} (jsonData : JsValue) (mappingConfig : List MappingConfig)
    (tableConfigs : List TableConfig) (template : Option (Except Thrown Workbook))
    (options : ExcelOptions) (serialize : Workbook → Except Thrown β) : Except Thrown β :=
  match generateWorkbookCore jsonData mappingConfig tableConfigs template options serialize with
  | .ok buffer => .ok buffer
  | .error e => .error (.error ("Failed to generate Excel workbook: " ++ e.messageOr "Unknown error"))

/-- Result record of `validateTemplate`. -/
structure ValidateResult where
  isValid : Bool
  sheets : List String
  error : Option String := none

/-- `validateTemplate` from excelUtils.ts: catch any load failure and report it
as data instead of raising.  `loadResult` is the outcome of the external
`workbook.xlsx.load` on the given buffer. -/
def validateTemplate (loadResult : Except Thrown Workbook) : ValidateResult :=
  match loadResult with
  | .ok workbook => { isValid := true, sheets := workbook.sheets.map (fun e => e.1) }
  | .error e => { isValid := false, sheets := [], error := some (e.messageOr "Invalid template file") }

/-- One entry of the `requests` array of the bulk endpoint. -/
structure BulkRequest where
  jsonData : JsValue := .undefined
  mappingConfig : List MappingConfig := []
  tables : List TableConfig := []
  fileName : Option String := none
  options : ExcelOptions := {}

structure BulkSuccessEntry (β : Type) where
  index : Nat
  fileName : String
  data : β

structure BulkErrorEntry where
  index : Nat
  error : String

/-- `request.fileName || \x60generated_${i + 1}.xlsx\x60`. -/
def bulkFileName (request : BulkRequest) (i : Nat) : String :=
  match request.fileName with
  | some s => if s ≠ "" then s else "generated_" ++ toString (i + 1) ++ ".xlsx"
  | none => "generated_" ++ toString (i + 1) ++ ".xlsx"

/-- The `for` loop of `bulkGenerate` in excelController.ts: each item is tried
in order; a success is appended to `results`, a failure to `errors`, and the
loop always continues. -/
def bulkLoop {β : Type} (serialize : Workbook → Except Thrown β) :
    Nat → List BulkRequest → List (BulkSuccessEntry β) → List BulkErrorEntry →
    List (BulkSuccessEntry β) × List BulkErrorEntry
  | _, [], results, errors => (results, errors)
  | i, request :: rest, results, errors =>
      match generateWorkbook request.jsonData request.mappingConfig request.tables none
          request.options serialize with
      | .ok buffer =>
          bulkLoop serialize (i + 1) rest
            (results ++ [{ index := i, fileName := bulkFileName request i, data := buffer }]) errors
      | .error e =>
          bulkLoop serialize (i + 1) rest results
            (errors ++ [{ index := i, error := e.messageOr "Unknown error" }])

/-- Response of the bulk endpoint (the summary counters of the JSON body). -/
structure BulkResponse (β : Type) where
  results : List (BulkSuccessEntry β)
  errors : List BulkErrorEntry
  total : Nat
  successful : Nat
  failed : Nat

/-- Outcome of `bulkGenerate`: a 400 for a missing/empty request array,
otherwise the 200 response assembled after the loop. -/
inductive BulkOutcome (β : Type) where
  | badRequest : BulkOutcome β
  | ok : BulkResponse β → BulkOutcome β

/-- `bulkGenerate` from excelController.ts.  `requests = none` models a body
whose `requests` is not an array. -/
def bulkGenerate {β : Type} (serialize : Workbook → Except Thrown β)
    (requests : Option (List BulkRequest)) : BulkOutcome β :=
  match requests with
  | none => .badRequest
  | some reqs =>
      if reqs.length = 0 then .badRequest
      else
        let (results, errors) := bulkLoop serialize 0 reqs [] []
        .ok { results := results, errors := errors, total := reqs.length,
              successful := results.length, failed := errors.length }

/-! ### Lemmas about dotted-path resolution -/

theorem foldl_jsStep_eq_resolveSegs (segs : List String) (current : JsValue) :
    segs.foldl jsStep current = resolveSegs current segs := by
  induction segs generalizing current with
  | nil => rfl
  | cons key rest ih => simpa [resolveSegs] using ih (jsStep current key)

theorem getNestedValue_eq_resolveSegs (obj : JsValue) (path : String) :
    getNestedValue obj path = resolveSegs obj ((splitOnDot path.data).map String.mk) := by
  simp [getNestedValue, foldl_jsStep_eq_resolveSegs]

theorem jsStep_of_falsy (current : JsValue) (key : String) (h : current.truthy = false) :
    jsStep current key = .null := by
  simp [jsStep, h]

theorem jsStep_of_prop_undef (current : JsValue) (key : String)
    (h : current.getProp key = .undefined) : jsStep current key = .null := by
  unfold jsStep
  rw [h]
  split <;> rfl

theorem jsStep_of_prop_null (current : JsValue) (key : String)
    (h : current.getProp key = .null) : jsStep current key = .null := by
  unfold jsStep
  rw [h]
  split <;> rfl

theorem resolveSegs_null (segs : List String) : resolveSegs .null segs = .null := by
  induction segs with
  | nil => rfl
  | cons key rest ih => simpa [resolveSegs, jsStep_of_falsy JsValue.null key rfl] using ih

/-- C2: for every JSON document and dotted path, `getNestedValue` splits the
path on `.` and walks the segments with the guarded property read, yielding
`null` whenever a segment is missing (reads as `undefined`); resolving
the document with field a.b = 5 along "a.b" yields 5 and along "a.c"
yields null. -/
theorem C2_nested_resolution :
    (getNestedValue (.obj [("a", .obj [("b", .num 5)])]) "a.b" = .num 5) ∧
    (getNestedValue (.obj [("a", .obj [("b", .num 5)])]) "a.c" = .null) ∧
    (∀ obj path, getNestedValue obj path = resolveSegs obj ((splitOnDot path.data).map String.mk)) ∧
    (∀ current key rest, current.getProp key = .undefined →
      resolveSegs current (key :: rest) = .null) := by
  refine ⟨rfl, rfl, getNestedValue_eq_resolveSegs, ?_⟩
  intro current key rest h
  simp [resolveSegs, jsStep_of_prop_undef current key h, resolveSegs_null]

/-- Witness for C2: the missing-segment clause at a concrete input. -/
theorem C2_nested_resolution_witness :
    resolveSegs (.obj [("a", .num 1)]) ("missing" :: ["more"]) = .null :=
  C2_nested_resolution.2.2.2 (.obj [("a", .num 1)]) "missing" ["more"] rfl

/-- C9: once an intermediate step of `getNestedValue` produces a falsy value,
the remaining segments all resolve to `null`; and a field present with value
`null` is indistinguishable from a missing field, both resolving to `null`. -/
theorem C9_falsy_collapse :
    (∀ current key rest, current.truthy = false →
      resolveSegs current (key :: rest) = .null) ∧
    (∀ current key rest,
      current.getProp key = .null ∨ current.getProp key = .undefined →
      resolveSegs current (key :: rest) = .null) ∧
    (getNestedValue (.obj [("k", .null)]) "k" = getNestedValue (.obj []) "k") := by
  refine ⟨?_, ?_, rfl⟩
  · intro current key rest h
    simp [resolveSegs, jsStep_of_falsy current key h, resolveSegs_null]
  · intro current key rest h
    rcases h with h | h
    · simp [resolveSegs, jsStep_of_prop_null current key h, resolveSegs_null]
    · simp [resolveSegs, jsStep_of_prop_undef current key h, resolveSegs_null]

/-- Witness for C9: a falsy intermediate value (the number 0) and a
present-but-null field, each at a concrete input. -/
theorem C9_falsy_collapse_witness :
    resolveSegs (.num 0) ("b" :: ["c"]) = .null ∧
    resolveSegs (.obj [("k", .null)]) ("k" :: ["rest"]) = .null :=
  ⟨C9_falsy_collapse.1 (.num 0) "b" ["c"] rfl,
   C9_falsy_collapse.2.1 (.obj [("k", .null)]) "k" ["rest"] (Or.inl rfl)⟩

/-! ### Lemmas about column-letter conversion -/

theorem charToNat_ofNat (n : Nat) (h : n < 55296) : (Char.ofNat n).toNat = n := by
  rw [Char.ofNat, dif_pos (Or.inl h)]
  rfl

theorem stringMk_data (s : String) : String.mk s.data = s := by
  cases s
  rfl

theorem colNum_numberToColumnLetterGo (fuel : Nat) : ∀ n, n ≤ fuel →
    (numberToColumnLetterGo fuel n).foldl
      (fun result c => result * 26 + (c.toNat - 'A'.toNat + 1)) 0 = n := by
  induction fuel with
  | zero =>
      intro n hn
      have : n = 0 := by omega
      subst this
      rfl
  | succ fuel ih =>
      intro n hn
      match n with
      | 0 => rfl
      | num + 1 =>
          rw [numberToColumnLetterGo, List.foldl_append]
          have h1 : num / 26 ≤ fuel := by
            have := Nat.div_le_self num 26
            omega
          rw [ih (num / 26) h1]
          have hA : 'A'.toNat = 65 := rfl
          have hm : num % 26 < 26 := Nat.mod_lt _ (by omega)
          have h2 : (Char.ofNat ('A'.toNat + num % 26)).toNat = 'A'.toNat + num % 26 :=
            charToNat_ofNat _ (by omega)
          simp only [List.foldl_cons, List.foldl_nil, h2]
          have := Nat.div_add_mod num 26
          omega

theorem numberToColumnLetterGo_zero (fuel : Nat) : numberToColumnLetterGo fuel 0 = [] := by
  cases fuel <;> rfl

theorem numberToColumnLetterGo_colNum (cs : List Char) :
    cs ≠ [] → (∀ c ∈ cs, 'A'.toNat ≤ c.toNat ∧ c.toNat ≤ 'Z'.toNat) →
    ∀ fuel, cs.foldl (fun result c => result * 26 + (c.toNat - 'A'.toNat + 1)) 0 ≤ fuel →
    numberToColumnLetterGo fuel
      (cs.foldl (fun result c => result * 26 + (c.toNat - 'A'.toNat + 1)) 0) = cs := by
  induction cs using List.reverseRecOn with
  | nil => intro h; exact absurd rfl h
  | append_singleton xs c ih =>
      intro _ hvalid fuel hfuel
      have hA : 'A'.toNat = 65 := rfl
      have hZ : 'Z'.toNat = 90 := rfl
      have hc : 'A'.toNat ≤ c.toNat ∧ c.toNat ≤ 'Z'.toNat :=
        hvalid c (by simp)
      set F := xs.foldl (fun result c => result * 26 + (c.toNat - 'A'.toNat + 1)) 0 with hF
      have hfold : (xs ++ [c]).foldl (fun result c => result * 26 + (c.toNat - 'A'.toNat + 1)) 0
          = F * 26 + (c.toNat - 'A'.toNat + 1) := by
        rw [List.foldl_append, ← hF]
        rfl
      rw [hfold] at hfuel ⊢
      set d := c.toNat - 'A'.toNat + 1 with hd
      have hd1 : 1 ≤ d := by omega
      have hd26 : d ≤ 26 := by omega
      obtain ⟨fuel', rfl⟩ : ∃ fuel', fuel = fuel' + 1 := by
        cases fuel with
        | zero => omega
        | succ m => exact ⟨m, rfl⟩
      obtain ⟨m, hm⟩ : ∃ m, F * 26 + d = m + 1 := ⟨F * 26 + d - 1, by omega⟩
      rw [hm, numberToColumnLetterGo]
      have hdiv : m / 26 = F := by omega
      have hmod : m % 26 = d - 1 := by omega
      have hchar : Char.ofNat ('A'.toNat + m % 26) = c := by
        rw [hmod]
        have : 'A'.toNat + (d - 1) = c.toNat := by omega
        rw [this, Char.ofNat_toNat]
      rw [hdiv, hchar]
      by_cases hxs : xs = []
      · subst hxs
        have hF0 : F = 0 := hF
        rw [hF0, numberToColumnLetterGo_zero]
      · have hFfuel : F ≤ fuel' := by omega
        rw [ih hxs (fun x hx => hvalid x (by simp [hx])) fuel' hFfuel]

/-- C3: column-letter/number conversion round-trips exactly in both directions
for valid column-letter strings (one or more characters A-Z) and positive
numbers, with A mapping to 1, AA to 27, and Z to 26 (base-26, 1-origin
digits). -/
theorem C3_column_roundtrip :
    (∀ s : String, s.data ≠ [] → (∀ c ∈ s.data, 'A'.toNat ≤ c.toNat ∧ c.toNat ≤ 'Z'.toNat) →
      numberToColumnLetter (columnLetterToNumber s) = s) ∧
    (∀ n : Nat, 0 < n → columnLetterToNumber (numberToColumnLetter n) = n) ∧
    columnLetterToNumber "A" = 1 ∧ numberToColumnLetter 1 = "A" ∧
    columnLetterToNumber "AA" = 27 ∧ numberToColumnLetter 27 = "AA" ∧
    columnLetterToNumber "Z" = 26 ∧ numberToColumnLetter 26 = "Z" := by
  refine ⟨?_, ?_, by decide, by decide, by decide, by decide, by decide, by decide⟩
  · intro s hne hvalid
    have h : numberToColumnLetterGo (columnLetterToNumber s) (columnLetterToNumber s) = s.data :=
      numberToColumnLetterGo_colNum s.data hne hvalid (columnLetterToNumber s) le_rfl
    show String.mk (numberToColumnLetterGo (columnLetterToNumber s) (columnLetterToNumber s)) = s
    rw [h]
  · intro n _
    show (numberToColumnLetterGo n n).foldl
      (fun result c => result * 26 + (c.toNat - 'A'.toNat + 1)) 0 = n
    exact colNum_numberToColumnLetterGo n n le_rfl

/-- Witness for C3: both round-trip directions at concrete inputs. -/
theorem C3_column_roundtrip_witness :
    numberToColumnLetter (columnLetterToNumber "AA") = "AA" ∧
    columnLetterToNumber (numberToColumnLetter 27) = 27 :=
  ⟨C3_column_roundtrip.1 "AA" (by decide) (by decide),
   C3_column_roundtrip.2.1 27 (by decide)⟩

/-! ### Lemmas about worksheet cell writes -/

theorem pair_ne_of_fst_ne {a b c d : Nat} (h : a ≠ c) : (a, b) ≠ (c, d) := by
  simp [Prod.ext_iff, h]

theorem pair_ne_of_snd_ne {a b c d : Nat} (h : b ≠ d) : (a, b) ≠ (c, d) := by
  simp [Prod.ext_iff, h]

theorem getCell_setCell_self (ws : Worksheet) (r c : Nat) (cell : Cell) :
    (ws.setCell r c cell).getCell r c = cell := by
  simp [Worksheet.getCell, Worksheet.setCell, lookupCell]

theorem getCell_setCell_ne (ws : Worksheet) (r c r' c' : Nat) (cell : Cell)
    (h : (r', c') ≠ (r, c)) :
    (ws.setCell r c cell).getCell r' c' = ws.getCell r' c' := by
  simp [Worksheet.getCell, Worksheet.setCell, lookupCell, Ne.symm h]

theorem getCell_setCellValue_self (ws : Worksheet) (r c : Nat) (v : CellValue) :
    (ws.setCellValue r c v).getCell r c = { ws.getCell r c with value := v } :=
  getCell_setCell_self ws r c _

theorem getCell_setCellValue_ne (ws : Worksheet) (r c r' c' : Nat) (v : CellValue)
    (h : (r', c') ≠ (r, c)) :
    (ws.setCellValue r c v).getCell r' c' = ws.getCell r' c' :=
  getCell_setCell_ne ws r c r' c' _ h

theorem getCell_setCellFill_ne (ws : Worksheet) (r c r' c' : Nat) (a : String)
    (h : (r', c') ≠ (r, c)) :
    (ws.setCellFill r c a).getCell r' c' = ws.getCell r' c' :=
  getCell_setCell_ne ws r c r' c' _ h

theorem getCell_setCellFont_ne (ws : Worksheet) (r c r' c' : Nat) (f : Font)
    (h : (r', c') ≠ (r, c)) :
    (ws.setCellFont r c f).getCell r' c' = ws.getCell r' c' :=
  getCell_setCell_ne ws r c r' c' _ h

theorem value_getCell_setCellFill (ws : Worksheet) (r c r' c' : Nat) (a : String) :
    ((ws.setCellFill r c a).getCell r' c').value = (ws.getCell r' c').value := by
  by_cases h : (r', c') = (r, c)
  · obtain ⟨h1, h2⟩ := Prod.mk.injEq .. ▸ h
    subst h1; subst h2
    rw [show (ws.setCellFill r' c' a).getCell r' c'
        = { ws.getCell r' c' with fill := some a } from getCell_setCell_self ws r' c' _]
  · rw [getCell_setCellFill_ne ws r c r' c' a h]

theorem tables_setCell (ws : Worksheet) (r c : Nat) (cell : Cell) :
    (ws.setCell r c cell).tables = ws.tables := rfl

theorem getCell_addTable (ws : Worksheet) (t : ExcelTable) (r c : Nat) :
    (ws.addTable t).getCell r c = ws.getCell r c := rfl

theorem getCell_applyRowFill_ne (tc : TableConfig) (rowIndex r colNum : Nat) (ws : Worksheet)
    (r' c' : Nat) (h : (r', c') ≠ (r, colNum)) :
    (applyRowFill tc rowIndex r colNum ws).getCell r' c' = ws.getCell r' c' := by
  simp only [applyRowFill]
  repeat' split
  all_goals first
    | rfl
    | exact getCell_setCellFill_ne ws r colNum r' c' _ h

theorem value_getCell_applyRowFill (tc : TableConfig) (rowIndex r colNum : Nat) (ws : Worksheet)
    (r' c' : Nat) :
    ((applyRowFill tc rowIndex r colNum ws).getCell r' c').value = (ws.getCell r' c').value := by
  simp only [applyRowFill]
  repeat' split
  all_goals first
    | rfl
    | exact value_getCell_setCellFill ws r colNum r' c' _

theorem getCell_writeTableCell_ne (tc : TableConfig) (rowIndex r colNum : Nat) (v : CellValue)
    (ws : Worksheet) (r' c' : Nat) (h : (r', c') ≠ (r, colNum)) :
    (writeTableCell tc rowIndex r colNum v ws).getCell r' c' = ws.getCell r' c' := by
  unfold writeTableCell
  rw [getCell_applyRowFill_ne tc rowIndex r colNum _ r' c' h,
    getCell_setCellValue_ne ws r colNum r' c' v h]

theorem value_getCell_writeTableCell_self (tc : TableConfig) (rowIndex r colNum : Nat)
    (v : CellValue) (ws : Worksheet) :
    ((writeTableCell tc rowIndex r colNum v ws).getCell r colNum).value = v := by
  unfold writeTableCell
  rw [value_getCell_applyRowFill, getCell_setCellValue_self]

theorem getCell_writeHeaderCells (tc : TableConfig) (startRow startCol : Nat) :
    ∀ (headers : List String) (index : Nat) (ws : Worksheet) (r' c' : Nat), r' ≠ startRow →
    (writeHeaderCells tc startRow startCol index headers ws).getCell r' c' = ws.getCell r' c' := by
  intro headers
  induction headers with
  | nil => intro index ws r' c' _; rfl
  | cons header rest ih =>
      intro index ws r' c' h
      simp only [writeHeaderCells]
      rw [ih (index + 1)]
      · have hp : (r', c') ≠ (startRow, startCol + index) := pair_ne_of_fst_ne h
        repeat' split
        all_goals
          first
          | rw [getCell_setCellFont_ne _ _ _ _ _ _ hp, getCell_setCellFill_ne _ _ _ _ _ _ hp,
              getCell_setCellValue_ne _ _ _ _ _ _ hp]
          | rw [getCell_setCellFont_ne _ _ _ _ _ _ hp, getCell_setCellValue_ne _ _ _ _ _ _ hp]
      · exact h

theorem tables_writeHeaderCells (tc : TableConfig) (startRow startCol : Nat) :
    ∀ (headers : List String) (index : Nat) (ws : Worksheet),
    (writeHeaderCells tc startRow startCol index headers ws).tables = ws.tables := by
  intro headers
  induction headers with
  | nil => intro index ws; rfl
  | cons header rest ih =>
      intro index ws
      simp only [writeHeaderCells]
      rw [ih (index + 1)]
      repeat' split
      all_goals rfl

theorem getCell_writeArrayCells (tc : TableConfig) (rowIndex currentRow startCol : Nat) :
    ∀ (values : List JsValue) (n : Nat) (ws : Worksheet) (r' c' : Nat),
    (∀ k, n ≤ k → k < tc.columns.length → (r', c') ≠ (currentRow, startCol + k)) →
    (writeArrayCells tc rowIndex currentRow startCol n values ws).getCell r' c' = ws.getCell r' c' := by
  intro values
  induction values with
  | nil => intro n ws r' c' _; rfl
  | cons v rest ih =>
      intro n ws r' c' h
      simp only [writeArrayCells]
      rw [ih (n + 1) _ r' c' (fun k hk1 hk2 => h k (by omega) hk2)]
      by_cases hn : n < tc.columns.length
      · rw [if_pos hn, getCell_writeTableCell_ne _ _ _ _ _ _ _ _ (h n le_rfl hn)]
      · rw [if_neg hn]

theorem tables_applyRowFill (tc : TableConfig) (rowIndex r colNum : Nat) (ws : Worksheet) :
    (applyRowFill tc rowIndex r colNum ws).tables = ws.tables := by
  simp only [applyRowFill]
  repeat' split
  all_goals rfl

theorem tables_writeTableCell (tc : TableConfig) (rowIndex r colNum : Nat) (v : CellValue)
    (ws : Worksheet) : (writeTableCell tc rowIndex r colNum v ws).tables = ws.tables := by
  unfold writeTableCell
  rw [tables_applyRowFill]
  rfl

theorem tables_writeArrayCells (tc : TableConfig) (rowIndex currentRow startCol : Nat) :
    ∀ (values : List JsValue) (n : Nat) (ws : Worksheet),
    (writeArrayCells tc rowIndex currentRow startCol n values ws).tables = ws.tables := by
  intro values
  induction values with
  | nil => intro n ws; rfl
  | cons v rest ih =>
      intro n ws
      simp only [writeArrayCells]
      rw [ih (n + 1)]
      split
      · exact tables_writeTableCell tc rowIndex currentRow (startCol + n) _ ws
      · rfl

theorem value_writeArrayCells (tc : TableConfig) (rowIndex currentRow startCol : Nat) :
    ∀ (values : List JsValue) (n j : Nat) (v : JsValue) (ws : Worksheet),
    n ≤ j → values.get? (j - n) = some v → j < tc.columns.length →
    ((writeArrayCells tc rowIndex currentRow startCol n values ws).getCell
        currentRow (startCol + j)).value = CellValue.plain v := by
  intro values
  induction values with
  | nil =>
      intro n j v ws _ hget _
      simp at hget
  | cons a rest ih =>
      intro n j v ws hnj hget hcols
      simp only [writeArrayCells]
      by_cases hjn : j = n
      · subst hjn
        have hv : v = a := by
          have : j - j = 0 := by omega
          rw [this] at hget
          simpa using hget.symm
        subst hv
        rw [getCell_writeArrayCells tc rowIndex currentRow startCol rest (j + 1) _
            currentRow (startCol + j)
            (fun k hk1 _ => pair_ne_of_snd_ne (by omega))]
        rw [if_pos hcols]
        exact value_getCell_writeTableCell_self tc rowIndex currentRow (startCol + j) _ ws
      · have hget2 : rest.get? (j - (n + 1)) = some v := by
          have heq : j - n = (j - (n + 1)) + 1 := by omega
          rw [heq] at hget
          simpa using hget
        exact ih (n + 1) j v _ (by omega) hget2 hcols

theorem writeObjectCells_obj_step (tc : TableConfig) (fields : List (String × JsValue))
    (rowIndex currentRow startCol n : Nat) (col : String) (rest : List String) (ws : Worksheet) :
    writeObjectCells tc (.obj fields) rowIndex currentRow startCol n (col :: rest) ws
      = writeObjectCells tc (.obj fields) rowIndex currentRow startCol (n + 1) rest
          (writeTableCell tc rowIndex currentRow (startCol + n)
            (.plain (jsOr (lookupField fields col) (.str ""))) ws) := rfl

theorem writeObjectCells_null_cons (tc : TableConfig)
    (rowIndex currentRow startCol n : Nat) (col : String) (rest : List String) (ws : Worksheet) :
    writeObjectCells tc .null rowIndex currentRow startCol n (col :: rest) ws
      = .error (.error ("Cannot read properties of null (reading " ++ col ++ ")")) := rfl

theorem getCell_writeObjectCells_obj (tc : TableConfig) (fields : List (String × JsValue))
    (rowIndex currentRow startCol : Nat) :
    ∀ (cols : List String) (n : Nat) (ws ws' : Worksheet) (r' c' : Nat),
    writeObjectCells tc (.obj fields) rowIndex currentRow startCol n cols ws = .ok ws' →
    (∀ k, n ≤ k → k < n + cols.length → (r', c') ≠ (currentRow, startCol + k)) →
    ws'.getCell r' c' = ws.getCell r' c' := by
  intro cols
  induction cols with
  | nil =>
      intro n ws ws' r' c' h _
      cases h
      rfl
  | cons col rest ih =>
      intro n ws ws' r' c' h hne
      rw [writeObjectCells_obj_step] at h
      rw [ih (n + 1) _ _ r' c' h (fun k hk1 hk2 => hne k (by omega) (by simp; omega))]
      exact getCell_writeTableCell_ne _ _ _ _ _ _ _ _ (hne n le_rfl (by simp))

theorem tables_writeObjectCells_obj (tc : TableConfig) (fields : List (String × JsValue))
    (rowIndex currentRow startCol : Nat) :
    ∀ (cols : List String) (n : Nat) (ws ws' : Worksheet),
    writeObjectCells tc (.obj fields) rowIndex currentRow startCol n cols ws = .ok ws' →
    ws'.tables = ws.tables := by
  intro cols
  induction cols with
  | nil =>
      intro n ws ws' h
      cases h
      rfl
  | cons col rest ih =>
      intro n ws ws' h
      rw [writeObjectCells_obj_step] at h
      rw [ih (n + 1) _ _ h]
      exact tables_writeTableCell tc rowIndex currentRow (startCol + n) _ ws

theorem value_writeObjectCells_obj (tc : TableConfig) (fields : List (String × JsValue))
    (rowIndex currentRow startCol : Nat) :
    ∀ (cols : List String) (n j : Nat) (col : String) (ws ws' : Worksheet),
    writeObjectCells tc (.obj fields) rowIndex currentRow startCol n cols ws = .ok ws' →
    n ≤ j → cols.get? (j - n) = some col →
    (ws'.getCell currentRow (startCol + j)).value
      = CellValue.plain (jsOr (lookupField fields col) (.str "")) := by
  intro cols
  induction cols with
  | nil =>
      intro n j col ws ws' _ _ hget
      simp at hget
  | cons c0 rest ih =>
      intro n j col ws ws' h hnj hget
      rw [writeObjectCells_obj_step] at h
      by_cases hjn : j = n
      · subst hjn
        have hc : col = c0 := by
          have : j - j = 0 := by omega
          rw [this] at hget
          simpa using hget.symm
        subst hc
        rw [getCell_writeObjectCells_obj tc fields rowIndex currentRow startCol rest (j + 1)
            _ _ currentRow (startCol + j) h
            (fun k hk1 _ => pair_ne_of_snd_ne (by omega))]
        exact value_getCell_writeTableCell_self tc rowIndex currentRow (startCol + j) _ ws
      · have hget2 : rest.get? (j - (n + 1)) = some col := by
          have heq : j - n = (j - (n + 1)) + 1 := by omega
          rw [heq] at hget
          simpa using hget
        exact ih (n + 1) j col _ _ h (by omega) hget2

theorem exceptBind_ok {ε α β : Type} {e : Except ε α} {f : α → Except ε β} {b : β}
    (h : (e >>= f) = .ok b) : ∃ a, e = .ok a ∧ f a = .ok b := by
  cases e with
  | ok a => exact ⟨a, rfl, h⟩
  | error err => exact Except.noConfusion h

theorem getCell_writeDataRow (tc : TableConfig) (startCol startRow m : Nat) (row : JsValue)
    (ws ws1 : Worksheet) (h : writeDataRow tc startCol startRow m row ws = .ok ws1)
    (r' c' : Nat) (hr : r' ≠ startRow + m + 1) :
    ws1.getCell r' c' = ws.getCell r' c' := by
  cases row with
  | arr values =>
      simp only [writeDataRow] at h
      injection h with h
      subst h
      exact getCell_writeArrayCells tc m (startRow + m + 1) startCol values 0 ws r' c'
        (fun k _ _ => pair_ne_of_fst_ne hr)
  | obj fields =>
      simp only [writeDataRow] at h
      exact getCell_writeObjectCells_obj tc fields m (startRow + m + 1) startCol tc.columns 0
        ws ws1 r' c' h (fun k _ _ => pair_ne_of_fst_ne hr)
  | null =>
      simp only [writeDataRow] at h
      cases hcols : tc.columns with
      | nil =>
          rw [hcols] at h
          injection h with h
          subst h
          rfl
      | cons col rest =>
          rw [hcols, writeObjectCells_null_cons] at h
          exact Except.noConfusion h
  | undefined => simp only [writeDataRow] at h; injection h with h; subst h; rfl
  | bool b => simp only [writeDataRow] at h; injection h with h; subst h; rfl
  | num n => simp only [writeDataRow] at h; injection h with h; subst h; rfl
  | str s => simp only [writeDataRow] at h; injection h with h; subst h; rfl

theorem tables_writeDataRow (tc : TableConfig) (startCol startRow m : Nat) (row : JsValue)
    (ws ws1 : Worksheet) (h : writeDataRow tc startCol startRow m row ws = .ok ws1) :
    ws1.tables = ws.tables := by
  cases row with
  | arr values =>
      simp only [writeDataRow] at h
      injection h with h
      subst h
      exact tables_writeArrayCells tc m (startRow + m + 1) startCol values 0 ws
  | obj fields =>
      simp only [writeDataRow] at h
      exact tables_writeObjectCells_obj tc fields m (startRow + m + 1) startCol tc.columns 0
        ws ws1 h
  | null =>
      simp only [writeDataRow] at h
      cases hcols : tc.columns with
      | nil =>
          rw [hcols] at h
          injection h with h
          subst h
          rfl
      | cons col rest =>
          rw [hcols, writeObjectCells_null_cons] at h
          exact Except.noConfusion h
  | undefined => simp only [writeDataRow] at h; injection h with h; subst h; rfl
  | bool b => simp only [writeDataRow] at h; injection h with h; subst h; rfl
  | num n => simp only [writeDataRow] at h; injection h with h; subst h; rfl
  | str s => simp only [writeDataRow] at h; injection h with h; subst h; rfl

theorem getCell_writeDataRows (tc : TableConfig) (startCol startRow : Nat) :
    ∀ (rows : List JsValue) (n : Nat) (ws ws' : Worksheet),
    writeDataRows tc startCol startRow n rows ws = .ok ws' →
    ∀ r' c', (∀ k, n ≤ k → k < n + rows.length → r' ≠ startRow + k + 1) →
    ws'.getCell r' c' = ws.getCell r' c' := by
  intro rows
  induction rows with
  | nil =>
      intro n ws ws' h r' c' _
      injection h with h
      subst h
      rfl
  | cons row rest ih =>
      intro n ws ws' h r' c' hne
      simp only [writeDataRows] at h
      obtain ⟨ws1, h1, h2⟩ := exceptBind_ok h
      rw [ih (n + 1) _ _ h2 r' c'
        (fun k hk1 hk2 => hne k (by omega) (by simp only [List.length_cons]; omega))]
      exact getCell_writeDataRow tc startCol startRow n row ws ws1 h1 r' c'
        (hne n le_rfl (by simp only [List.length_cons]; omega))

theorem tables_writeDataRows (tc : TableConfig) (startCol startRow : Nat) :
    ∀ (rows : List JsValue) (n : Nat) (ws ws' : Worksheet),
    writeDataRows tc startCol startRow n rows ws = .ok ws' →
    ws'.tables = ws.tables := by
  intro rows
  induction rows with
  | nil =>
      intro n ws ws' h
      injection h with h
      subst h
      rfl
  | cons row rest ih =>
      intro n ws ws' h
      simp only [writeDataRows] at h
      obtain ⟨ws1, h1, h2⟩ := exceptBind_ok h
      rw [ih (n + 1) _ _ h2]
      exact tables_writeDataRow tc startCol startRow n row ws ws1 h1

theorem writeDataRows_get (tc : TableConfig) (startCol startRow : Nat) :
    ∀ (rows : List JsValue) (n : Nat) (ws ws' : Worksheet) (i : Nat) (row : JsValue),
    writeDataRows tc startCol startRow n rows ws = .ok ws' →
    rows.get? i = some row →
    ∃ ws1 ws2, writeDataRow tc startCol startRow (n + i) row ws1 = .ok ws2 ∧
      (∀ c', ws'.getCell (startRow + (n + i) + 1) c' = ws2.getCell (startRow + (n + i) + 1) c') ∧
      (∀ c', ws1.getCell (startRow + (n + i) + 1) c' = ws.getCell (startRow + (n + i) + 1) c') := by
  intro rows
  induction rows with
  | nil =>
      intro n ws ws' i row _ hget
      simp at hget
  | cons row0 rest ih =>
      intro n ws ws' i row h hget
      simp only [writeDataRows] at h
      obtain ⟨wsA, h1, h2⟩ := exceptBind_ok h
      cases i with
      | zero =>
          have hrow : row0 = row := by simpa using hget
          subst hrow
          refine ⟨ws, wsA, by simpa using h1, ?_, fun c' => rfl⟩
          intro c'
          exact getCell_writeDataRows tc startCol startRow rest (n + 1) wsA ws' h2 _ c'
            (fun k hk1 _ => by omega)
      | succ i' =>
          have hget' : rest.get? i' = some row := by simpa using hget
          obtain ⟨ws1, ws2, hw, hpost, hpre⟩ := ih (n + 1) wsA ws' i' row h2 hget'
          have hidx : n + 1 + i' = n + (i' + 1) := by omega
          rw [hidx] at hw hpost hpre
          refine ⟨ws1, ws2, hw, hpost, ?_⟩
          intro c'
          rw [hpre c']
          exact getCell_writeDataRow tc startCol startRow n row0 ws wsA h1 _ c' (by omega)

theorem createTable_ok_elim (ws : Worksheet) (tc : TableConfig) (data : List JsValue)
    (ws' : Worksheet) (startCol startRow : Nat)
    (hlen : ¬ data.length = 0)
    (hp : parseCellRef tc.startCell = some (startCol, startRow))
    (h : createTable ws tc data = .ok ws') :
    ∃ wsd rows, writeDataRows tc startCol startRow 0 data
        (writeHeaderCells tc startRow startCol 0 tc.columns ws) = .ok wsd ∧
      data.mapM (tableRowCells tc) = .ok rows ∧
      ws' = wsd.addTable {
        name := tc.tableName,
        ref := tc.startCell ++ ":" ++ numberToColumnLetter (startCol + tc.columns.length - 1)
                 ++ toString (startRow + data.length),
        headerRow := true, theme := "TableStyleMedium9", showRowStripes := true,
        columns := tc.columns, rows := rows } := by
  rw [createTable, if_neg hlen, hp] at h
  obtain ⟨wsd, h1, h2⟩ := exceptBind_ok h
  obtain ⟨rows, h3, h4⟩ := exceptBind_ok h2
  injection h4 with h4
  exact ⟨wsd, rows, h1, h3, h4.symm⟩

/-- C4 (amended): every data row at 0-based index i is written into worksheet
row `startRow + i + 1`; value-list rows are written positionally with values
beyond `columns.length` ignored (those cells are untouched); object rows look
each column name up as a key and write the looked-up value when it is truthy,
substituting the empty string when the key is absent or its value is falsy. -/
theorem C4_table_rows (ws : Worksheet) (tc : TableConfig) (data : List JsValue)
    (ws' : Worksheet) (startCol startRow : Nat)
    (hp : parseCellRef tc.startCell = some (startCol, startRow))
    (h : createTable ws tc data = .ok ws') :
    ∀ i row, data.get? i = some row →
      (∀ values, row = .arr values →
          (∀ j v, j < tc.columns.length → values.get? j = some v →
            (ws'.getCell (startRow + i + 1) (startCol + j)).value = .plain v) ∧
          (∀ j, tc.columns.length ≤ j →
            ws'.getCell (startRow + i + 1) (startCol + j)
              = ws.getCell (startRow + i + 1) (startCol + j))) ∧
      (∀ fields, row = .obj fields → ∀ j col, tc.columns.get? j = some col →
          (ws'.getCell (startRow + i + 1) (startCol + j)).value
            = .plain (jsOr (lookupField fields col) (.str ""))) := by
  intro i row hget
  have hlen : ¬ data.length = 0 := by
    cases data with
    | nil => simp at hget
    | cons a rest => simp
  obtain ⟨wsd, rows, hrows, hmap, hws'⟩ :=
    createTable_ok_elim ws tc data ws' startCol startRow hlen hp h
  subst hws'
  obtain ⟨ws1, ws2, hw, hpost, hpre⟩ :=
    writeDataRows_get tc startCol startRow data 0 _ wsd i row hrows hget
  rw [Nat.zero_add] at hw hpost hpre
  constructor
  · intro values hrow
    subst hrow
    simp only [writeDataRow] at hw
    injection hw with hw
    constructor
    · intro j v hj hv
      rw [getCell_addTable, hpost (startCol + j), ← hw]
      exact value_writeArrayCells tc i (startRow + i + 1) startCol values 0 j v ws1
        (by omega) (by simpa using hv) hj
    · intro j hj
      rw [getCell_addTable, hpost (startCol + j), ← hw]
      rw [getCell_writeArrayCells tc i (startRow + i + 1) startCol values 0 ws1 _ _
        (fun k _ hk2 => pair_ne_of_snd_ne (by omega))]
      rw [hpre (startCol + j)]
      exact getCell_writeHeaderCells tc startRow startCol tc.columns 0 ws _ _ (by omega)
  · intro fields hrow j col hcol
    subst hrow
    simp only [writeDataRow] at hw
    rw [getCell_addTable, hpost (startCol + j)]
    exact value_writeObjectCells_obj tc fields i (startRow + i + 1) startCol tc.columns 0 j col
      ws1 ws2 hw (by omega) (by simpa using hcol)

/-- Counterexample to C4 as stated: an object row with the key P present and
value 0 (truthy claim reading: the looked-up value 0 should be written) gets
the empty string written instead, because the code computes
`row[column] || ''` and 0 is falsy. -/
theorem C4_counterexample :
    (createTable {} { sheet := "S", tableName := "T", startCell := "A1", columns := ["P"] }
        [.obj [("P", .num 0)]]).map (fun w => (w.getCell 2 1).value)
      = .ok (.plain (.str "")) ∧
    lookupField [("P", .num 0)] "P" = .num 0 ∧
    CellValue.plain (.str "") ≠ CellValue.plain (.num 0) := by
  refine ⟨rfl, rfl, ?_⟩
  intro hcontra
  injection hcontra with hv
  exact JsValue.noConfusion hv

def tcC4w : TableConfig := { sheet := "S", tableName := "T", startCell := "B2", columns := ["P"] }

def dataC4w : List JsValue := [.arr [.num 7, .num 9], .obj [("P", .str "x")]]

def wsC4w : Worksheet :=
  match createTable {} tcC4w dataC4w with
  | .ok w => w
  | .error _ => {}

/-- Witness for C4: the amended theorem applied at a concrete table. -/
theorem C4_table_rows_witness :
    (wsC4w.getCell 3 2).value = .plain (.num 7) ∧
    wsC4w.getCell 3 3 = ({} : Worksheet).getCell 3 3 ∧
    (wsC4w.getCell 4 2).value = .plain (jsOr (lookupField [("P", .str "x")] "P") (.str "")) :=
  ⟨((C4_table_rows {} tcC4w dataC4w wsC4w 2 2 rfl rfl 0 _ rfl).1 _ rfl).1 0 (.num 7)
      (by decide) rfl,
   ((C4_table_rows {} tcC4w dataC4w wsC4w 2 2 rfl rfl 0 _ rfl).1 _ rfl).2 1 (by decide),
   (C4_table_rows {} tcC4w dataC4w wsC4w 2 2 rfl rfl 1 _ rfl).2 [("P", .str "x")] rfl 0 "P" rfl⟩

/-- C5: for non-empty data, `createTable` registers exactly one new native
table spanning from `startCell` to the end cell at column
`startCol + columns.length - 1` and row `startRow + dataRows.length`, with
header row enabled and the striped default theme; on columns P, Q with data
rows (1,2) and (3,4) at A1 the registered table spans A1:B3 with header row
P, Q and those two data rows. -/
theorem C5_table_registration :
    (∀ (ws : Worksheet) (tc : TableConfig) (data : List JsValue) (ws' : Worksheet)
        (startCol startRow : Nat),
      data ≠ [] →
      parseCellRef tc.startCell = some (startCol, startRow) →
      createTable ws tc data = .ok ws' →
      ∃ rows, data.mapM (tableRowCells tc) = .ok rows ∧
        ws'.tables = ws.tables ++ [{
          name := tc.tableName,
          ref := tc.startCell ++ ":" ++ numberToColumnLetter (startCol + tc.columns.length - 1)
                   ++ toString (startRow + data.length),
          headerRow := true, theme := "TableStyleMedium9", showRowStripes := true,
          columns := tc.columns, rows := rows }]) ∧
    (createTable {} { sheet := "S", tableName := "PQ", startCell := "A1", columns := ["P", "Q"] }
        [.arr [.num 1, .num 2], .arr [.num 3, .num 4]]).map
      (fun w => (w.tables, (w.getCell 1 1).value, (w.getCell 1 2).value,
        (w.getCell 2 1).value, (w.getCell 2 2).value, (w.getCell 3 1).value, (w.getCell 3 2).value))
      = .ok ([{
          name := "PQ", ref := "A1:B3", headerRow := true, theme := "TableStyleMedium9",
          showRowStripes := true, columns := ["P", "Q"],
          rows := [[.num 1, .num 2], [.num 3, .num 4]] }],
        .plain (.str "P"), .plain (.str "Q"), .plain (.num 1), .plain (.num 2),
        .plain (.num 3), .plain (.num 4)) := by
  constructor
  · intro ws tc data ws' startCol startRow hne hp h
    have hlen : ¬ data.length = 0 := by
      cases data with
      | nil => exact absurd rfl hne
      | cons a rest => simp
    obtain ⟨wsd, rows, hrows, hmap, hws'⟩ :=
      createTable_ok_elim ws tc data ws' startCol startRow hlen hp h
    subst hws'
    refine ⟨rows, hmap, ?_⟩
    show wsd.tables ++ _ = _
    rw [tables_writeDataRows tc startCol startRow data 0 _ wsd hrows,
      tables_writeHeaderCells tc startRow startCol tc.columns 0 ws]
  · rfl

def tcC5w : TableConfig := { sheet := "S", tableName := "PQ", startCell := "A1", columns := ["P", "Q"] }

def dataC5w : List JsValue := [.arr [.num 1, .num 2], .arr [.num 3, .num 4]]

def wsC5w : Worksheet :=
  match createTable {} tcC5w dataC5w with
  | .ok w => w
  | .error _ => {}

/-- Witness for C5: the registration clause applied at the concrete P, Q table. -/
theorem C5_table_registration_witness :
    wsC5w.tables.map (fun t => (t.name, t.ref, t.headerRow, t.theme, t.showRowStripes, t.columns))
      = [("PQ", "A1:B3", true, "TableStyleMedium9", true, ["P", "Q"])] := by
  obtain ⟨rows, hmap, htab⟩ := C5_table_registration.1 {} tcC5w dataC5w wsC5w 1 1
    (List.cons_ne_nil _ _) rfl rfl
  rw [htab]
  rfl

/-! ### Lemmas about workbook sheet management and the mapping engine -/

theorem find?_append_of_none {α : Type} (p : α → Bool) (l1 l2 : List α)
    (h : l1.find? p = none) : (l1 ++ l2).find? p = l2.find? p := by
  induction l1 with
  | nil => rfl
  | cons a rest ih =>
      by_cases hp : p a
      · rw [List.find?_cons_of_pos _ hp] at h
        exact Option.noConfusion h
      · rw [List.find?_cons_of_neg _ hp] at h
        rw [List.cons_append, List.find?_cons_of_neg _ hp]
        exact ih h

theorem find?_map_replace (name : String) (ws : Worksheet) :
    ∀ l : List (String × Worksheet),
    (l.find? (fun e => e.1 == name)).isSome →
    (l.map (fun e => if e.1 = name then (name, ws) else e)).find? (fun e => e.1 == name)
      = some (name, ws) := by
  intro l
  induction l with
  | nil => intro h; simp at h
  | cons e rest ih =>
      intro h
      by_cases he : e.1 = name
      · simp only [List.map_cons, if_pos he]
        rw [List.find?_cons_of_pos _ (by simp)]
      · have hb : (e.1 == name) = false := by simpa using he
        simp only [List.map_cons, if_neg he]
        simp only [List.find?, hb] at h ⊢
        exact ih h

theorem getWorksheet_setWorksheet_of_present (wb : Workbook) (name : String) (ws : Worksheet)
    (h : (wb.getWorksheet name).isSome) :
    (wb.setWorksheet name ws).getWorksheet name = some ws := by
  have h' : (wb.sheets.find? (fun e => e.1 == name)).isSome := by
    unfold Workbook.getWorksheet at h
    cases hf : wb.sheets.find? (fun e => e.1 == name) with
    | none => rw [hf] at h; simp at h
    | some e => rfl
  unfold Workbook.getWorksheet Workbook.setWorksheet
  rw [find?_map_replace name ws wb.sheets h']

theorem getWorksheet_ensureWorksheet_isSome (wb : Workbook) (name : String) :
    ((wb.ensureWorksheet name).getWorksheet name).isSome := by
  unfold Workbook.ensureWorksheet
  split
  · assumption
  · rename_i h
    unfold Workbook.getWorksheet Workbook.addWorksheet at *
    have hnone : wb.sheets.find? (fun e => e.1 == name) = none := by
      cases hf : wb.sheets.find? (fun e => e.1 == name) with
      | none => rfl
      | some e => rw [hf] at h; simp at h
    rw [find?_append_of_none _ _ _ hnone]
    rw [List.find?_cons_of_pos _ (by simp)]
    rfl

theorem value_applyCellStyle (cell : Cell) (style : Option MappingStyle) :
    (applyCellStyle cell style).value = cell.value := by
  unfold applyCellStyle
  repeat' split
  all_goals rfl

theorem value_applyCellFormat (cell : Cell) (format : Option String) :
    (applyCellFormat cell format).value = cell.value := by
  unfold applyCellFormat
  repeat' split
  all_goals rfl

/-- C1 (amended): a processed mapping with a (non-empty) formula sets the
target cell to that formula with cached result equal to the resolved field
value when that value is truthy and 0 otherwise (so 0 replaces not only null
but every falsy resolved value); without a formula the resolved value is
stored directly, with the empty string substituted exactly when the value is
null. -/
theorem C1_mapping_value (jsonData : JsValue) (workbook : Workbook) (mapping : MappingConfig)
    (workbook' : Workbook) (col row : Nat)
    (hp : parseCellRef mapping.cell = some (col, row))
    (h : processMapping jsonData workbook mapping = .ok workbook') :
    ∃ ws', workbook'.getWorksheet mapping.sheet = some ws' ∧
      (ws'.getCell row col).value =
        (match mapping.formula with
         | some f =>
             if f = "" then
               CellValue.plain (match getNestedValue jsonData mapping.fieldName with
                 | .null => .str ""
                 | v => v)
             else
               CellValue.formulaResult f
                 (if (getNestedValue jsonData mapping.fieldName).truthy then
                    getNestedValue jsonData mapping.fieldName
                  else .num 0)
         | none =>
             CellValue.plain (match getNestedValue jsonData mapping.fieldName with
               | .null => .str ""
               | v => v)) := by
  unfold processMapping at h
  rw [hp] at h
  injection h with h
  subst h
  refine ⟨_, getWorksheet_setWorksheet_of_present _ mapping.sheet _
    (getWorksheet_ensureWorksheet_isSome workbook mapping.sheet), ?_⟩
  rw [getCell_setCell_self, value_applyCellFormat, value_applyCellStyle]
  rfl

/-- Counterexample to C1 as stated: a formula mapping whose field resolves to
the empty string (which is not null, so the claim requires the cached result
to be that resolved value) gets cached result 0, because the code computes
`value || 0` and the empty string is falsy. -/
theorem C1_counterexample :
    (processMapping (.obj [("x", .str "")]) {}
        { sheet := "Sheet1", cell := "B1", fieldName := "x", formula := some "SUM(B2:B10)" }).map
      (fun wb => (wb.getWorksheet "Sheet1").map (fun ws => (ws.getCell 1 2).value))
      = .ok (some (.formulaResult "SUM(B2:B10)" (.num 0))) ∧
    getNestedValue (.obj [("x", .str "")]) "x" = .str "" ∧
    JsValue.str "" ≠ JsValue.null ∧
    JsValue.num 0 ≠ JsValue.str "" :=
  ⟨rfl, rfl, fun hc => JsValue.noConfusion hc, fun hc => JsValue.noConfusion hc⟩

def mC1w : MappingConfig :=
  { sheet := "Sheet1", cell := "A1", fieldName := "x", formula := some "SUM(A1:A2)" }

def wbC1w : Workbook :=
  match processMapping (.obj [("x", .num 5)]) {} mC1w with
  | .ok wb => wb
  | .error _ => {}

/-- Witness for C1: the amended theorem applied at a concrete formula mapping
with a truthy resolved value. -/
theorem C1_mapping_value_witness :
    (wbC1w.getWorksheet "Sheet1").map (fun ws => (ws.getCell 1 1).value)
      = some (.formulaResult "SUM(A1:A2)" (.num 5)) := by
  obtain ⟨ws', hws, hval⟩ := C1_mapping_value (.obj [("x", .num 5)]) {} mC1w wbC1w 1 1 rfl rfl
  have hs : mC1w.sheet = "Sheet1" := rfl
  rw [hs] at hws
  rw [hws]
  show some ((ws'.getCell 1 1).value) = _
  rw [hval]
  rfl

/-! ### Workbook assembler, template inspector and bulk generation claims -/

/-- C8: every inner failure of the generation pipeline (template load, mapping,
table building, serialization) is re-raised as a single generation failure
carrying the original error message, and no buffer is returned on failure;
every inner success returns the serialized buffer unchanged. -/
theorem C8_failure_wrapping {β : Type} (jsonData : JsValue) (mappingConfig : List MappingConfig)
    (tableConfigs : List TableConfig) (template : Option (Except Thrown Workbook))
    (options : ExcelOptions) (serialize : Workbook → Except Thrown β) :
    (∃ buffer,
      generateWorkbookCore jsonData mappingConfig tableConfigs template options serialize
        = .ok buffer ∧
      generateWorkbook jsonData mappingConfig tableConfigs template options serialize
        = .ok buffer) ∨
    (∃ e,
      generateWorkbookCore jsonData mappingConfig tableConfigs template options serialize
        = .error e ∧
      generateWorkbook jsonData mappingConfig tableConfigs template options serialize
        = .error (.error ("Failed to generate Excel workbook: "
            ++ e.messageOr "Unknown error"))) := by
  unfold generateWorkbook
  cases h : generateWorkbookCore jsonData mappingConfig tableConfigs template options serialize with
  | ok buffer => exact Or.inl ⟨buffer, rfl, rfl⟩
  | error e => exact Or.inr ⟨e, rfl, rfl⟩

/-- C10: a tableData array containing a null element makes the table builder
enter the object-row branch (typeof null is object), where the column-key read
on null throws, so the whole generation is rejected with a failure instead of
skipping the row or producing a buffer. -/
theorem C10_null_row_rejects :
    generateWorkbook (.obj [("tableData", .arr [.null])]) []
        [{ sheet := "S", tableName := "T", startCell := "A1", columns := ["P"] }] none {}
        (Except.ok : Workbook → Except Thrown Workbook)
      = .error (.error
          "Failed to generate Excel workbook: Cannot read properties of null (reading P)") ∧
    writeDataRow { sheet := "S", tableName := "T", startCell := "A1", columns := ["P"] }
        1 1 0 .null {}
      = .error (.error "Cannot read properties of null (reading P)") :=
  ⟨rfl, rfl⟩

/-- C7: `validateTemplate` is a total function of the load outcome (it never
raises): a successful load yields isValid true with the sheet names in order,
and a failed load yields isValid false carrying the thrown error's message
(or the fixed fallback text for a non-Error throw), which is a non-empty
string whenever the thrown message is non-empty. -/
theorem C7_validate_template (loadResult : Except Thrown Workbook) :
    (∀ wb, loadResult = .ok wb →
      validateTemplate loadResult
        = { isValid := true, sheets := wb.sheets.map (fun e => e.1), error := none }) ∧
    (∀ e, loadResult = .error e →
      validateTemplate loadResult
          = { isValid := false, sheets := [],
              error := some (e.messageOr "Invalid template file") } ∧
        (e.messageOr "Invalid template file" ≠ "" →
          ∃ msg, (validateTemplate loadResult).error = some msg ∧ msg ≠ "")) := by
  constructor
  · intro wb h
    subst h
    rfl
  · intro e h
    subst h
    exact ⟨rfl, fun hne => ⟨_, rfl, hne⟩⟩

/-- Witness for C7: a corrupt buffer whose load throws an Error. -/
theorem C7_validate_template_witness :
    validateTemplate (.error (.error "corrupt zip"))
      = { isValid := false, sheets := [], error := some "corrupt zip" } ∧
    ∃ msg, (validateTemplate (.error (.error "corrupt zip"))).error = some msg ∧ msg ≠ "" :=
  ⟨((C7_validate_template (.error (.error "corrupt zip"))).2 (.error "corrupt zip") rfl).1,
   ((C7_validate_template (.error (.error "corrupt zip"))).2 (.error "corrupt zip") rfl).2
     (by decide)⟩

/-- Index-value pairs of a list starting at a given index (the enumeration
performed by the bulk loop counter). -/
def enumIdx {α : Type} : Nat → List α → List (Nat × α)
  | _, [] => []
  | i, a :: rest => (i, a) :: enumIdx (i + 1) rest

/-- The per-item outcome of the bulk loop, success side. -/
def bulkItemOk {β : Type} (serialize : Workbook → Except Thrown β) (p : Nat × BulkRequest) :
    Option (BulkSuccessEntry β) :=
  match generateWorkbook p.2.jsonData p.2.mappingConfig p.2.tables none p.2.options serialize with
  | .ok buffer => some { index := p.1, fileName := bulkFileName p.2 p.1, data := buffer }
  | .error _ => none

/-- The per-item outcome of the bulk loop, failure side. -/
def bulkItemErr {β : Type} (serialize : Workbook → Except Thrown β) (p : Nat × BulkRequest) :
    Option BulkErrorEntry :=
  match generateWorkbook p.2.jsonData p.2.mappingConfig p.2.tables none p.2.options serialize with
  | .ok _ => none
  | .error e => some { index := p.1, error := e.messageOr "Unknown error" }

theorem bulkLoop_eq {β : Type} (serialize : Workbook → Except Thrown β) :
    ∀ (reqs : List BulkRequest) (i : Nat) (results : List (BulkSuccessEntry β))
      (errors : List BulkErrorEntry),
    bulkLoop serialize i reqs results errors
      = (results ++ (enumIdx i reqs).filterMap (bulkItemOk serialize),
         errors ++ (enumIdx i reqs).filterMap (bulkItemErr serialize)) := by
  intro reqs
  induction reqs with
  | nil =>
      intro i results errors
      simp [bulkLoop, enumIdx]
  | cons req rest ih =>
      intro i results errors
      simp only [bulkLoop, enumIdx, List.filterMap_cons]
      cases h : generateWorkbook req.jsonData req.mappingConfig req.tables none
          req.options serialize with
      | ok buffer => simp [bulkItemOk, bulkItemErr, h, ih]
      | error e => simp [bulkItemOk, bulkItemErr, h, ih]

def bulkReqA : BulkRequest := {
  jsonData := .obj [("name", .str "A")],
  mappingConfig := [{ sheet := "Sheet1", cell := "A1", fieldName := "name" }] }

def bulkReqBad : BulkRequest := {
  jsonData := .obj [("name", .str "B")],
  mappingConfig := [{ sheet := "Sheet1", cell := "1A", fieldName := "name" }] }

def bulkReqC : BulkRequest := {
  jsonData := .obj [("name", .str "C")],
  mappingConfig := [{ sheet := "Sheet1", cell := "B2", fieldName := "name" }] }

/-- C6: bulk generation walks the request array strictly in index order,
recording each item's success or failure individually (the response's results
and errors are exactly the index-ordered filterings of the per-item outcomes),
and never aborts on a single failure; with 3 requests where index 1 fails, the
response has 2 results, 1 error, and that error has index 1. -/
theorem C6_bulk_isolation {β : Type} (serialize : Workbook → Except Thrown β) :
    (∀ reqs : List BulkRequest, reqs ≠ [] →
      bulkGenerate serialize (some reqs) = .ok {
        results := (enumIdx 0 reqs).filterMap (bulkItemOk serialize),
        errors := (enumIdx 0 reqs).filterMap (bulkItemErr serialize),
        total := reqs.length,
        successful := ((enumIdx 0 reqs).filterMap (bulkItemOk serialize)).length,
        failed := ((enumIdx 0 reqs).filterMap (bulkItemErr serialize)).length }) ∧
    (match bulkGenerate (Except.ok : Workbook → Except Thrown Workbook)
        (some [bulkReqA, bulkReqBad, bulkReqC]) with
     | .badRequest => none
     | .ok resp => some (resp.results.length, resp.errors.length,
         resp.errors.map (fun e => e.index), resp.results.map (fun r => r.index)))
      = some (2, 1, [1], [0, 2]) := by
  constructor
  · intro reqs hne
    have hlen : ¬ reqs.length = 0 := by
      cases reqs with
      | nil => exact absurd rfl hne
      | cons a rest => simp
    simp only [bulkGenerate]
    rw [if_neg hlen, bulkLoop_eq serialize reqs 0 [] []]
    simp
  · rfl

/-- Witness for C6: the characterization applied at the concrete 3-request
batch whose middle request has an unparsable cell reference. -/
theorem C6_bulk_isolation_witness :
    bulkGenerate (Except.ok : Workbook → Except Thrown Workbook)
        (some [bulkReqA, bulkReqBad, bulkReqC])
      = .ok {
        results := (enumIdx 0 [bulkReqA, bulkReqBad, bulkReqC]).filterMap
          (bulkItemOk (Except.ok : Workbook → Except Thrown Workbook)),
        errors := (enumIdx 0 [bulkReqA, bulkReqBad, bulkReqC]).filterMap
          (bulkItemErr (Except.ok : Workbook → Except Thrown Workbook)),
        total := 3,
        successful := ((enumIdx 0 [bulkReqA, bulkReqBad, bulkReqC]).filterMap
          (bulkItemOk (Except.ok : Workbook → Except Thrown Workbook))).length,
        failed := ((enumIdx 0 [bulkReqA, bulkReqBad, bulkReqC]).filterMap
          (bulkItemErr (Except.ok : Workbook → Except Thrown Workbook))).length } :=
  (C6_bulk_isolation (Except.ok : Workbook → Except Thrown Workbook)).1
    [bulkReqA, bulkReqBad, bulkReqC] (List.cons_ne_nil _ _)
